import Mathlib

/-!
A verification development for the WebRTC signaling system
(signaling server registry/router, client connection pool,
topology coordinator, quality adapter, duplicate suppression).

The definitions below are shallow embeddings of the TypeScript source:

* `SignalingServer` state and its handlers `handleJoinRoom`,
  `handleLeaveRoom`, `handleDisconnect`, `handleSignaling`
  (src/server/server.ts);
* `RTCPeerConnectionPool` (src/client/client.ts);
* the architecture-mode coordinator of `RTCClient`
  (`checkAndSwitchArchitecture` / `switchArchitecture`);
* the quality-tier computation of `adjustMediaQuality`;
* the duplicate-signaling suppression of `RTCClient.handleSignaling`
  and `getMessageId`.

JavaScript `Map`s whose claims only need point lookups are embedded as
functions `String → Option α`; `Date.now()` readings are threaded as
explicit numeric arguments; emissions through the socket layer are
returned as explicit output lists.
-/

namespace WebRTC

/-- Point update of a functional map, modelling `Map.set` / `Map.delete`
(`delete` passes `none`). -/
def mupd (m : String → Option α) (k : String) (v : Option α) :
    String → Option α :=
  fun x => if x = k then v else m x

/-! ## Server data model (src/types.ts) -/

/-- `UserInfo` from src/types.ts: the server's record of one user. -/
structure UserInfo where
  userId : String
  roomId : Option String
  connected : Bool
  joinedAt : Nat
  deriving DecidableEq, Repr

/-- `RoomInfo` from src/types.ts: room id, member user ids, creation time. -/
structure RoomInfo where
  roomId : String
  users : List String
  createdAt : Nat
  deriving DecidableEq, Repr

/-- `SignalingMessage` from src/types.ts.  The `from` and `to` fields
are named `fromId` / `toId` (`from` and `to` are Lean keywords); `sdp`
stands for the inner `sdp.sdp` string and `candidate` for the inner
`candidate.candidate` string, the only parts the code reads. -/
structure SignalingMessage where
  type : String
  fromId : Option String := none
  toId : Option String := none
  roomId : Option String := none
  sdp : Option String := none
  candidate : Option String := none
  architectureMode : Option String := none
  error : Option String := none
  deriving DecidableEq, Repr

/-- The server's rolling message statistics (`SignalingServer.stats`). -/
structure ServerStats where
  messagesReceived : Nat
  messagesSent : Nat
  messagesDelayed : Nat
  averageLatency : ℚ
  lastMessageTime : Nat
  deriving DecidableEq, Repr

/-- State of a `SignalingServer` instance: the four registry maps, the
message statistics, the latency window, and the per-room ICE batch
queue with its timer flags. -/
structure ServerState where
  rooms : String → Option RoomInfo
  users : String → Option UserInfo
  socketToUser : String → Option String
  userToSocket : String → Option String
  stats : ServerStats
  messageLatencies : List Nat
  messageQueue : String → Option (List SignalingMessage)
  messageQueueTimers : String → Option Bool

/-- A freshly constructed server: all maps empty, all counters zero. -/
def initServer : ServerState where
  rooms := fun _ => none
  users := fun _ => none
  socketToUser := fun _ => none
  userToSocket := fun _ => none
  stats := ⟨0, 0, 0, 0, 0⟩
  messageLatencies := []
  messageQueue := fun _ => none
  messageQueueTimers := fun _ => none

/-- Outputs the server pushes through the socket layer: a direct emit to
one socket, or a `socket.to(roomId)` broadcast (room members except the
sending socket). -/
inductive Payload where
  | userJoined (userId roomId : String)
  | roomJoined (roomId userId : String) (users : List String)
  | userLeft (userId roomId : String)
  | signaling (m : SignalingMessage)
  | archMode (architectureMode : Option String) (roomId : String)
  deriving DecidableEq, Repr

inductive SOut where
  | emitTo (socketId : String) (event : String) (p : Payload)
  | broadcastExcept (roomId socketId : String) (event : String) (p : Payload)
  deriving DecidableEq, Repr

/-! ## Server handlers (src/server/server.ts) -/

/-- `SignalingServer.handleJoinRoom` (server.ts:191-245).  `now` models
the `Date.now()` readings. -/
def handleJoinRoom (st : ServerState) (socketId roomId : String)
    (userId : Option String) (now : Nat) : ServerState × List SOut :=
  let actualUserId := userId.getD socketId
  let userInfo : UserInfo :=
    { userId := actualUserId, roomId := some roomId
      connected := true, joinedAt := now }
  let room := (st.rooms roomId).getD ⟨roomId, [], now⟩
  let room' :=
    if actualUserId ∈ room.users then room
    else { room with users := room.users ++ [actualUserId] }
  ({ st with
      users := mupd st.users actualUserId (some userInfo)
      socketToUser := mupd st.socketToUser socketId (some actualUserId)
      userToSocket := mupd st.userToSocket actualUserId (some socketId)
      rooms := mupd st.rooms roomId (some room') },
   [SOut.broadcastExcept roomId socketId "user-joined"
      (Payload.userJoined actualUserId roomId),
    SOut.emitTo socketId "room-joined"
      (Payload.roomJoined roomId actualUserId
        (room'.users.filter (fun id => id ≠ actualUserId)))])

/-- `SignalingServer.handleLeaveRoom` (server.ts:261-298). -/
def handleLeaveRoom (st : ServerState) (socketId : String) :
    ServerState × List SOut :=
  match st.socketToUser socketId with
  | none => (st, [])
  | some userId =>
    match st.users userId with
    | none => (st, [])
    | some userInfo =>
      match userInfo.roomId with
      | none => (st, [])
      | some roomId =>
        let (rooms', outs) :=
          match st.rooms roomId with
          | none => (st.rooms, [])
          | some room =>
            let remaining := room.users.filter (fun id => id ≠ userId)
            if remaining = [] then
              (mupd st.rooms roomId none, [])
            else
              (mupd st.rooms roomId (some { room with users := remaining }),
               [SOut.broadcastExcept roomId socketId "user-left"
                  (Payload.userLeft userId roomId)])
        ({ st with
            rooms := rooms'
            users := mupd st.users userId
              (some { userInfo with roomId := none, connected := false })
            userToSocket := mupd st.userToSocket userId none },
         outs)

/-- `SignalingServer.handleDisconnect` (server.ts:540-556): leave the
room, then delete the user record and both socket-identity mappings. -/
def handleDisconnect (st : ServerState) (socketId : String) :
    ServerState × List SOut :=
  match st.socketToUser socketId with
  | none => (st, [])
  | some userId =>
    let (st₁, outs) := handleLeaveRoom st socketId
    ({ st₁ with
        socketToUser := mupd st₁.socketToUser socketId none
        userToSocket := mupd st₁.userToSocket userId none
        users := mupd st₁.users userId none },
     outs)

/-- `SignalingServer.recordLatency` (server.ts:489-505): push the
latency into a 1000-sample window, recompute the average, and count the
message as delayed when the latency exceeds 100 ms. -/
def recordLatency (st : ServerState) (latency : Nat) : ServerState :=
  let latencies₀ := st.messageLatencies ++ [latency]
  let latencies := if latencies₀.length > 1000 then latencies₀.drop 1
                   else latencies₀
  { st with
      messageLatencies := latencies
      stats := { st.stats with
        averageLatency := (latencies.sum : ℚ) / (latencies.length : ℚ)
        messagesDelayed :=
          if latency > 100 then st.stats.messagesDelayed + 1
          else st.stats.messagesDelayed } }

/-- `SignalingServer.sendMessage` (server.ts:460-481): unicast to
`message.to` when set (dropped silently when that user has no socket),
otherwise broadcast to the room excluding the sender. -/
def sendMessage (st : ServerState) (message : SignalingMessage)
    (socketId roomId : String) : ServerState × List SOut :=
  match message.toId with
  | some target =>
    match st.userToSocket target with
    | some targetSocket =>
      ({ st with stats :=
          { st.stats with messagesSent := st.stats.messagesSent + 1 } },
       [SOut.emitTo targetSocket "signaling" (Payload.signaling message)])
    | none => (st, [])
  | none =>
    let sent :=
      match st.rooms roomId with
      | some room => room.users.length - 1
      | none => 0
    ({ st with stats :=
        { st.stats with messagesSent := st.stats.messagesSent + sent } },
     [SOut.broadcastExcept roomId socketId "signaling"
        (Payload.signaling message)])

/-- `SignalingServer.queueMessage` (server.ts:390-407): append the
ICE candidate to the per-room batch and arm the flush timer if absent. -/
def queueMessage (st : ServerState) (roomId : String)
    (message : SignalingMessage) : ServerState :=
  let queue := (st.messageQueue roomId).getD []
  { st with
      messageQueue := mupd st.messageQueue roomId (some (queue ++ [message]))
      messageQueueTimers :=
        match st.messageQueueTimers roomId with
        | some t => mupd st.messageQueueTimers roomId (some t)
        | none => mupd st.messageQueueTimers roomId (some true) }

/-- JavaScript `String.prototype.startsWith`, written over character
lists so that it evaluates by kernel reduction. -/
def startsWithB (s p : String) : Bool := p.toList.isPrefixOf s.toList

/-- `SignalingServer.handleSignaling` (server.ts:315-378).  `startTime`
and `endTime` model the two `Date.now()` readings; the processing
latency is their difference. -/
def handleSignaling (st : ServerState) (socketId : String)
    (message : SignalingMessage) (startTime endTime : Nat) :
    ServerState × List SOut :=
  match st.socketToUser socketId with
  | none =>
    (st, [SOut.emitTo socketId "signaling"
      (Payload.signaling { type := "error", error := some "用户未加入房间" })])
  | some userId =>
    match st.users userId with
    | none =>
      (st, [SOut.emitTo socketId "signaling"
        (Payload.signaling { type := "error", error := some "用户未加入房间" })])
    | some userInfo =>
      match userInfo.roomId with
      | none =>
        (st, [SOut.emitTo socketId "signaling"
          (Payload.signaling
            { type := "error", error := some "用户未加入房间" })])
      | some roomId =>
        let message :=
          { message with fromId := some userId, roomId := some roomId }
        if message.type = "architecture-mode" then
          (st, [SOut.broadcastExcept roomId socketId "architecture-mode"
                  (Payload.archMode message.architectureMode roomId)])
        else if startsWithB message.type "sfu-" then
          (st, [SOut.broadcastExcept roomId socketId "signaling"
                  (Payload.signaling message)])
        else
          let st := { st with stats :=
            { st.stats with
                messagesReceived := st.stats.messagesReceived + 1
                lastMessageTime := startTime } }
          let (st, outs) :=
            if message.type = "ice-candidate" then
              (queueMessage st roomId message, [])
            else
              sendMessage st message socketId roomId
          (recordLatency st (endTime - startTime), outs)

/-- `SignalingServer.getRoom` (server.ts:615-617). -/
def getRoom (st : ServerState) (roomId : String) : Option RoomInfo :=
  st.rooms roomId

/-- `SignalingServer.getUser` (server.ts:625-627). -/
def getUser (st : ServerState) (userId : String) : Option UserInfo :=
  st.users userId

/-- `SignalingServer.getRoomUsers` (server.ts:656-659). -/
def getRoomUsers (st : ServerState) (roomId : String) : List String :=
  match st.rooms roomId with
  | some room => room.users
  | none => []

/-! ## Registry event traces -/

/-- The membership events handled by the signaling server: `join-room`
(with its optional explicit user id and a `Date.now()` reading),
`leave-room`, and `disconnect`. -/
inductive SEvent where
  | join (socketId roomId : String) (userId : Option String) (now : Nat)
  | leave (socketId : String)
  | disconnect (socketId : String)
  deriving DecidableEq, Repr

/-- One membership event applied to the server state. -/
def serverStep (st : ServerState) (e : SEvent) : ServerState :=
  match e with
  | .join s r u now => (handleJoinRoom st s r u now).1
  | .leave s => (handleLeaveRoom st s).1
  | .disconnect s => (handleDisconnect st s).1

/-- A sequence of membership events applied in order. -/
def serverRun (st : ServerState) : List SEvent → ServerState
  | [] => st
  | e :: t => serverRun (serverStep st e) t

/-- Modelled from the spec: the ghost registry tracking, per user, the
room the user "joined and has not since left or disconnected", together
with the user last bound to each socket.  `join` binds the socket and
records the room, `leave` removes the socket's user from its room, and
`disconnect` additionally unbinds the socket. -/
structure Ghost where
  sockU : String → Option String
  memb : String → Option String

def initGhost : Ghost := ⟨fun _ => none, fun _ => none⟩

/-- Modelled from the spec: one membership event applied to the ghost
registry. -/
def ghostStep (g : Ghost) (e : SEvent) : Ghost :=
  match e with
  | .join s r u _now =>
    let a := u.getD s
    { sockU := mupd g.sockU s (some a)
      memb := mupd g.memb a (some r) }
  | .leave s =>
    match g.sockU s with
    | some a => { g with memb := mupd g.memb a none }
    | none => g
  | .disconnect s =>
    match g.sockU s with
    | some a => { sockU := mupd g.sockU s none, memb := mupd g.memb a none }
    | none => g

def ghostRun (g : Ghost) : List SEvent → Ghost
  | [] => g
  | e :: t => ghostRun (ghostStep g e) t

/-- A join is "single-room" when the joining user is not currently a
member of a different room — the restriction under which the spec's
registry invariants hold (the spec itself flags the cross-room join as
an unresolved open question). -/
def okJoinB (st : ServerState) (socketId roomId : String)
    (userId : Option String) : Bool :=
  let a := userId.getD socketId
  match st.users a with
  | some info =>
    match info.roomId with
    | some r => r = roomId
    | none => true
  | none => true

/-- `validB st t`: every join along the trace is single-room. -/
def validB (st : ServerState) : List SEvent → Bool
  | [] => true
  | e :: t =>
    (match e with
     | .join s r u _ => okJoinB st s r u
     | _ => true) && validB (serverStep st e) t

/-- Coupling between the implementation registry and the ghost
membership: socket bindings agree, `user.roomId` mirrors the ghost
membership, and every room holds exactly the ghost members of that
room (nonempty and duplicate-free), existing exactly when it has a
ghost member. -/
structure Coupled (st : ServerState) (g : Ghost) : Prop where
  sock : st.socketToUser = g.sockU
  userMemb : ∀ u r,
    (∃ info, st.users u = some info ∧ info.roomId = some r) ↔
      g.memb u = some r
  roomProps : ∀ r room, st.rooms r = some room →
    room.roomId = r ∧ room.users ≠ [] ∧ room.users.Nodup ∧
      (∀ u, u ∈ room.users ↔ g.memb u = some r)
  membRoom : ∀ r u, g.memb u = some r → (st.rooms r).isSome

/-! ## RTCPeerConnectionPool (src/client/client.ts:1695-1921)

Native connection handles are modelled as natural numbers drawn from a
fresh-handle counter (each `acquire` constructs a brand-new
`RTCPeerConnection`; handles are never reused).  The configuration
cache stores the canonical config keys produced by `getConfigKey`; the
cached deep-copied configuration objects themselves are not observable
through `getStats` beyond the cache size. -/

structure PoolStats where
  created : Nat
  released : Nat
  active : Nat
  deriving DecidableEq, Repr

structure PoolState where
  nextHandle : Nat
  activeConnections : Finset Nat
  pendingClose : Finset Nat
  configCache : List String
  stats : PoolStats
  deriving DecidableEq

def initPool : PoolState :=
  { nextHandle := 0, activeConnections := ∅, pendingClose := ∅
    configCache := [], stats := ⟨0, 0, 0⟩ }

/-- `RTCPeerConnectionPool.acquire` (client.ts:1728-1767): cache the
config key with FIFO eviction above 10 entries, construct a fresh
connection, add it to the active set and bump `created`. -/
def poolAcquire (st : PoolState) (configKey : String) : PoolState × Nat :=
  let cache :=
    if st.configCache.contains configKey then st.configCache
    else
      let c := st.configCache ++ [configKey]
      if c.length > 10 then c.drop 1 else c
  let pc := st.nextHandle
  let active := insert pc st.activeConnections
  ({ nextHandle := pc + 1
     activeConnections := active
     pendingClose := st.pendingClose
     configCache := cache
     stats := { created := st.stats.created + 1
                released := st.stats.released
                active := active.card } },
   pc)

/-- `RTCPeerConnectionPool.release` (client.ts:1776-1798): no-op on a
handle outside the active set; otherwise remove it, bump `released`,
and schedule a delayed close. -/
def poolRelease (st : PoolState) (pc : Nat) : PoolState :=
  if pc ∈ st.activeConnections then
    let active := st.activeConnections.erase pc
    { st with
        activeConnections := active
        pendingClose := insert pc st.pendingClose
        stats := { created := st.stats.created
                   released := st.stats.released + 1
                   active := active.card } }
  else st

/-- `RTCPeerConnectionPool.releaseImmediate` (client.ts:1808-1826):
cancel any pending delayed close, close now, and bump `released`
(unconditionally). -/
def poolReleaseImmediate (st : PoolState) (pc : Nat) : PoolState :=
  let active := st.activeConnections.erase pc
  { st with
      pendingClose := st.pendingClose.erase pc
      activeConnections := active
      stats := { created := st.stats.created
                 released := st.stats.released + 1
                 active := active.card } }

/-- The delayed-close timer armed by `release` firing for `pc`
(client.ts:1788-1795): close the connection and drop it from the
pending-close set. -/
def poolTimerFire (st : PoolState) (pc : Nat) : PoolState :=
  { st with pendingClose := st.pendingClose.erase pc }

/-- `RTCPeerConnectionPool.clear` (client.ts:1831-1859). -/
def poolClear (st : PoolState) : PoolState :=
  { st with
      activeConnections := ∅
      pendingClose := ∅
      configCache := []
      stats := ⟨0, 0, 0⟩ }

structure PoolStatsView where
  created : Nat
  released : Nat
  active : Nat
  pendingClose : Nat
  configCacheSize : Nat
  deriving DecidableEq, Repr

/-- `RTCPeerConnectionPool.getStats` (client.ts:1873-1885). -/
def poolGetStats (st : PoolState) : PoolStatsView :=
  { created := st.stats.created
    released := st.stats.released
    active := st.stats.active
    pendingClose := st.pendingClose.card
    configCacheSize := st.configCache.length }

/-- Observable pool events: the four public calls plus the delayed
close timers firing. -/
inductive PEvent where
  | acquire (configKey : String)
  | release (pc : Nat)
  | releaseImmediate (pc : Nat)
  | timerFire (pc : Nat)
  | clear
  deriving DecidableEq, Repr

def poolStep (st : PoolState) : PEvent → PoolState
  | .acquire k => (poolAcquire st k).1
  | .release pc => poolRelease st pc
  | .releaseImmediate pc => poolReleaseImmediate st pc
  | .timerFire pc => poolTimerFire st pc
  | .clear => poolClear st

def poolRun (st : PoolState) : List PEvent → PoolState
  | [] => st
  | e :: t => poolRun (poolStep st e) t

/-- An event is well-formed when `releaseImmediate` targets a currently
active handle (each handle released at most once, through either path)
and a close timer only fires for a handle it was armed for. -/
def poolOkB (st : PoolState) : PEvent → Bool
  | .releaseImmediate pc => pc ∈ st.activeConnections
  | .timerFire pc => pc ∈ st.pendingClose
  | _ => true

def poolValidB (st : PoolState) : List PEvent → Bool
  | [] => true
  | e :: t => poolOkB st e && poolValidB (poolStep st e) t

/-! ## RTCClient architecture coordinator (src/client/client.ts) -/

inductive ArchMode where
  | mesh | sfu | auto
  deriving DecidableEq, Repr

/-- The slice of `RTCClientOptions` the coordinator reads.
`architectureMode` is stored as resolved by the constructor
(`options.architectureMode || "auto"`, client.ts:150);
`meshToSFUThreshold` is kept raw because the `|| 10` default is
re-applied at each use site (client.ts:527), with `some 0` falsy in
JavaScript and therefore also defaulting to 10. -/
structure ClientOptions where
  architectureMode : ArchMode
  meshToSFUThreshold : Option Nat
  sfuOptions : Bool
  deriving DecidableEq, Repr

/-- `this.options.meshToSFUThreshold || 10`. -/
def resolvedThreshold (o : ClientOptions) : Nat :=
  match o.meshToSFUThreshold with
  | none => 10
  | some 0 => 10
  | some n => n

/-- The coordinator-relevant state of one `RTCClient`: current mode,
room user count, room binding, the single and per-user peer
connections (as presence flags / peer user-id list), whether an
`SFUAdapter` was constructed, the local stream, and multi-peer mode. -/
structure ClientState where
  options : ClientOptions
  currentArchitectureMode : ArchMode
  roomUserCount : Nat
  roomId : Option String
  userId : Option String
  peerConnection : Bool
  peerConnections : List String
  sfuAdapter : Bool
  localStream : Bool
  multiPeerMode : Bool
  deriving DecidableEq, Repr

/-- The `RTCClient` constructor (client.ts:144-199): current mode is
`mesh` under `auto`, and the SFU adapter exists only when the resolved
mode is `sfu` or `auto` *and* `sfuOptions` was supplied. -/
def initClient (architectureMode : Option ArchMode)
    (meshToSFUThreshold : Option Nat) (sfuOptions : Bool) : ClientState :=
  let am := architectureMode.getD .auto
  { options := { architectureMode := am
                 meshToSFUThreshold := meshToSFUThreshold
                 sfuOptions := sfuOptions }
    currentArchitectureMode := if am = .auto then .mesh else am
    roomUserCount := 0
    roomId := none
    userId := none
    peerConnection := false
    peerConnections := []
    sfuAdapter := (am = .sfu || am = .auto) && sfuOptions
    localStream := false
    multiPeerMode := false }

/-- Side effects of the coordinator, returned as an explicit log. -/
inductive CAction where
  | closeMeshConnections
  | sfuDisconnect
  | notifyArchMode (m : ArchMode)
  | sfuConnect
  | sfuPublish
  | initPeer
  | createOffer
  | acquirePeerFor (userId : String)
  | releasePeerFor (userId : String)
  deriving DecidableEq, Repr

/-- `RTCClient.switchArchitecture` (client.ts:550-602): tear down the
current mode's connections, set the new mode, notify the room, then
initialise the new mode (connecting to the SFU only when an adapter
exists). -/
def switchArchitecture (st : ClientState) (mode : ArchMode) :
    ClientState × List CAction :=
  if mode = st.currentArchitectureMode then (st, [])
  else
    let (st₁, closeActs) :=
      if st.currentArchitectureMode = .mesh then
        ({ st with peerConnections := [], peerConnection := false },
         [CAction.closeMeshConnections])
      else if st.currentArchitectureMode = .sfu && st.sfuAdapter then
        (st, [CAction.sfuDisconnect])
      else (st, [])
    let st₂ := { st₁ with currentArchitectureMode := mode }
    let acts := closeActs ++ [CAction.notifyArchMode mode]
    if mode = .sfu && st₂.sfuAdapter && st₂.roomId.isSome then
      (st₂, acts ++ [CAction.sfuConnect] ++
        (if st₂.localStream then [CAction.sfuPublish] else []))
    else if mode = .mesh && st₂.roomId.isSome then
      ({ st₂ with peerConnection := true }, acts ++ [CAction.initPeer])
    else (st₂, acts)

/-- `RTCClient.checkAndSwitchArchitecture` (client.ts:522-537). -/
def checkAndSwitchArchitecture (st : ClientState) :
    ClientState × List CAction :=
  if st.options.architectureMode ≠ .auto then (st, [])
  else
    let threshold := resolvedThreshold st.options
    let shouldUseSFU := decide (threshold ≤ st.roomUserCount)
    if shouldUseSFU && st.currentArchitectureMode = .mesh then
      switchArchitecture st .sfu
    else if !shouldUseSFU && st.currentArchitectureMode = .sfu then
      switchArchitecture st .mesh
    else (st, [])

/-- The socket events driving the coordinator: `room-joined`,
`user-joined` (with the ambient `signalingState === "stable"` test as a
boolean input), `user-left`, and a remote `architecture-mode`
notification. -/
inductive CEvent where
  | roomJoined (roomId userId : String) (users : List String)
  | userJoined (stable : Bool)
  | userLeft (userId : String)
  | archModeMsg (m : ArchMode)
  deriving DecidableEq, Repr

/-- The `setupSignalingHandlers` reactions (client.ts:215-336).  Both
registered `user-joined` handlers run in registration order (offer
creation, then count update + architecture check), and likewise for
`user-left`. -/
def clientStep (st : ClientState) : CEvent → ClientState × List CAction
  | .roomJoined r uid users =>
    let st₁ := { st with roomId := some r, userId := some uid
                         roomUserCount := users.length + 1 }
    let (st₂, acts) :=
      if st₁.options.architectureMode = .auto then
        checkAndSwitchArchitecture st₁
      else (st₁, [])
    if st₂.multiPeerMode && st₂.currentArchitectureMode = .mesh then
      ({ st₂ with peerConnections :=
          st₂.peerConnections ++
            users.filter (fun u => !st₂.peerConnections.contains u) },
       acts ++ (users.map CAction.acquirePeerFor))
    else (st₂, acts)
  | .userJoined stable =>
    let acts₁ := if st.peerConnection && stable then [CAction.createOffer]
                 else []
    let st₁ := { st with roomUserCount := st.roomUserCount + 1 }
    let (st₂, acts₂) :=
      if st₁.options.architectureMode = .auto then
        checkAndSwitchArchitecture st₁
      else (st₁, [])
    (st₂, acts₁ ++ acts₂)
  | .userLeft uid =>
    let (st₁, acts₁) :=
      if st.multiPeerMode && st.peerConnections.contains uid then
        ({ st with peerConnections := st.peerConnections.filter (· ≠ uid) },
         [CAction.releasePeerFor uid])
      else (st, [])
    let st₂ := { st₁ with roomUserCount := st₁.roomUserCount - 1 }
    let (st₃, acts₂) :=
      if st₂.options.architectureMode = .auto then
        checkAndSwitchArchitecture st₂
      else (st₂, [])
    (st₃, acts₁ ++ acts₂)
  | .archModeMsg m =>
    if m ≠ st.currentArchitectureMode then switchArchitecture st m
    else (st, [])

def clientRun (st : ClientState) : List CEvent → ClientState × List CAction
  | [] => (st, [])
  | e :: t =>
    let (st₁, acts₁) := clientStep st e
    let (st₂, acts₂) := clientRun st₁ t
    (st₂, acts₁ ++ acts₂)

/-! ## Quality adapter (src/client/client.ts:1579-1615) -/

inductive QualityLevel where
  | low | medium | high
  deriving DecidableEq, Repr

/-- The tier computation of `RTCClient.adjustMediaQuality`
(client.ts:1579-1615): bandwidth thresholds pick the base tier, then
the packet-loss rules and finally the RTT rules force `low` or
downgrade one step. -/
def adjustQualityTier (bandwidth packetLoss rtt : ℚ) : QualityLevel :=
  let t₁ : QualityLevel :=
    if bandwidth < 500000 then .low
    else if bandwidth < 2000000 then .medium
    else .high
  let t₂ : QualityLevel :=
    if packetLoss > 5 then .low
    else if packetLoss > 2 then (if t₁ = .high then .medium else .low)
    else t₁
  if rtt > 300 then .low
  else if rtt > 150 then (if t₂ = .high then .medium else .low)
  else t₂

/-- Modelled from the spec: the claim's ordered rules with the most
severe outcome winning — `rtt > 300` forces low, `rtt > 150`
downgrades one step (high→medium, medium→low), `loss > 5` forces low,
`loss > 2` downgrades one step, and the bandwidth thresholds give the
base tier (`< 500000` low, `< 2000000` medium, otherwise high). -/
def specQualityTier (bandwidth packetLoss rtt : ℚ) : QualityLevel :=
  let base : QualityLevel :=
    if bandwidth < 500000 then .low
    else if bandwidth < 2000000 then .medium
    else .high
  let afterRtt : QualityLevel :=
    if rtt > 300 then .low
    else if rtt > 150 then (if base = .high then .medium else .low)
    else base
  if packetLoss > 5 then .low
  else if packetLoss > 2 then (if afterRtt = .high then .medium else .low)
  else afterRtt

/-! ## Duplicate-signaling suppression (src/client/client.ts:940-993) -/

/-- `RTCClient.getMessageId` (client.ts:986-993): message type, sender,
and the first 50 characters of the SDP / candidate. -/
def getMessageId (m : SignalingMessage) : String :=
  let sdpHash := match m.sdp with
    | some s => s.take 50
    | none => ""
  let candidateHash := match m.candidate with
    | some c => c.take 50
    | none => ""
  m.type ++ "-" ++ m.fromId.getD "" ++ "-" ++ sdpHash ++ candidateHash

/-- The dedup slice of `RTCClient.handleSignaling` (client.ts:940-952):
drop a message whose id was already processed, otherwise record the id
and clear the whole set once its size exceeds 1000.  The `Set` is
modelled as its insertion-ordered element list; the returned boolean is
true when the message is processed (not dropped). -/
def dedupeStep (ids : List String) (m : SignalingMessage) :
    Bool × List String :=
  let mid := getMessageId m
  if ids.contains mid then (false, ids)
  else
    let ids' := ids ++ [mid]
    (true, if ids'.length > 1000 then [] else ids')

/-- "Sender socket is not registered to any room": no user is bound to
the socket, or the bound user record is missing or has no room. -/
def notRegisteredB (st : ServerState) (socketId : String) : Bool :=
  match st.socketToUser socketId with
  | none => true
  | some uid =>
    match st.users uid with
    | none => true
    | some info => info.roomId.isNone

/-- The room-membership updates among the client socket events. -/
def isMembershipEvent : CEvent → Bool
  | .roomJoined _ _ _ => true
  | .userJoined _ => true
  | .userLeft _ => true
  | .archModeMsg _ => false

/-- The pool's statistics invariant together with the bookkeeping facts
needed to push it through every well-formed event. -/
def PoolInv (st : PoolState) : Prop :=
  st.stats.created = st.stats.released + st.activeConnections.card ∧
  st.activeConnections.card + st.pendingClose.card ≤ st.stats.created ∧
  Disjoint st.activeConnections st.pendingClose ∧
  st.stats.active = st.activeConnections.card ∧
  ∀ x ∈ st.activeConnections ∪ st.pendingClose, x < st.nextHandle

/-- A sample offer message for concrete evaluation. -/
def sampleOfferMsg : SignalingMessage :=
  { type := "offer", fromId := some "alice", sdp := some "v=0 o=- 42" }

/-- A dedup set already holding 1000 distinct message ids. -/
def thousandIds : List String := (List.range 1000).map (fun n => Nat.repr n)

/-- The registry state after the trace join("s", "A", "u"). -/
def stJoined : ServerState :=
  serverRun initServer [.join "s" "A" (some "u") 0]

/-- A remote architecture-mode switch notification. -/
def archMsgFixture : SignalingMessage :=
  { type := "architecture-mode", architectureMode := some "sfu" }

/-- An SFU-vocabulary message. -/
def sfuMsgFixture : SignalingMessage := { type := "sfu-publish" }

/-- A mesh client in auto mode, threshold 3, two peers connected, no
SFU options configured. -/
def clientNoSfu : ClientState :=
  { options := { architectureMode := .auto, meshToSFUThreshold := some 3
                 sfuOptions := false }
    currentArchitectureMode := .mesh
    roomUserCount := 2
    roomId := some "A"
    userId := some "me"
    peerConnection := true
    peerConnections := ["u1", "u2"]
    sfuAdapter := false
    localStream := false
    multiPeerMode := true }

/-- The registry after join("s","A","u") followed by leave("s"):
the user record survives the leave with `roomId` cleared. -/
def stLeft : ServerState :=
  (handleLeaveRoom (serverRun initServer [.join "s" "A" (some "u") 0]) "s").1

/-- A single-room trace: two users join room "A", the first leaves. -/
def traceOk : List SEvent :=
  [.join "s1" "A" none 0, .join "s2" "A" (some "u2") 1, .leave "s1"]

/-- A cross-room trace: "u" joins room "A", then room "B" on the same
socket, then disconnects. -/
def traceCross : List SEvent :=
  [.join "s" "A" (some "u") 0, .join "s" "B" (some "u") 1, .disconnect "s"]

/-- The cross-room trace without the final disconnect. -/
def traceTwoRooms : List SEvent :=
  [.join "s" "A" (some "u") 0, .join "s" "B" (some "u") 1]

/-- A well-formed pool call sequence exercising every event kind. -/
def poolTrace : List PEvent :=
  [.acquire "a", .acquire "b", .release 0, .timerFire 0,
   .releaseImmediate 1, .clear, .acquire "c"]

/-- `releaseImmediate` on a handle that was already released (pending
close), the call pattern the code's own docs describe ("cancel the
delayed close"). -/
def poolBadTrace : List PEvent := [.acquire "k", .release 0, .releaseImmediate 0]

/-! ## Theorems -/

@[simp] theorem mupd_same (m : String → Option α) (k : String) (v : Option α) :
    mupd m k v k = v := by simp [mupd]

@[simp] theorem mupd_other (m : String → Option α) (k x : String)
    (v : Option α) (h : x ≠ k) : mupd m k v x = m x := by simp [mupd, h]

theorem coupled_init : Coupled initServer initGhost := by
  refine ⟨rfl, ?_, ?_, ?_⟩ <;> simp [initServer, initGhost]

theorem memb_none_of_users_none {st : ServerState} {g : Ghost}
    (hC : Coupled st g) {u : String} (hu : st.users u = none) :
    g.memb u = none := by
  cases hm : g.memb u with
  | none => rfl
  | some r =>
    rcases (hC.userMemb u r).mpr hm with ⟨info, hi, _⟩
    rw [hu] at hi; cases hi

theorem memb_none_of_roomId_none {st : ServerState} {g : Ghost}
    (hC : Coupled st g) {u : String} {info : UserInfo}
    (hu : st.users u = some info) (hr : info.roomId = none) :
    g.memb u = none := by
  cases hm : g.memb u with
  | none => rfl
  | some r =>
    rcases (hC.userMemb u r).mpr hm with ⟨info', hi, hri⟩
    rw [hu] at hi
    cases hi
    rw [hr] at hri; cases hri

theorem okJoin_spec {st : ServerState} {s r : String} {u : Option String}
    (h : okJoinB st s r u = true) :
    ∀ info rid, st.users (u.getD s) = some info →
      info.roomId = some rid → rid = r := by
  intro info rid hi hr
  unfold okJoinB at h
  simp only [hi, hr, decide_eq_true_eq] at h
  exact h

/-- Preservation of the coupling by `handleJoinRoom`, for a single-room
join. -/
theorem coupled_join (st : ServerState) (g : Ghost) (s r : String)
    (u : Option String) (now : Nat) (hC : Coupled st g)
    (hok : okJoinB st s r u = true) :
    Coupled (handleJoinRoom st s r u now).1 (ghostStep g (.join s r u now)) := by
  have hok' := okJoin_spec hok
  have hnotElse : ∀ r' room', r' ≠ r → st.rooms r' = some room' →
      u.getD s ∉ room'.users := by
    intro r' room' hne hr' hmem
    have := ((hC.roomProps r' room' hr').2.2.2 (u.getD s)).mp hmem
    rcases (hC.userMemb (u.getD s) r').mpr this with ⟨info, hi, hri⟩
    exact hne (hok' info r' hi hri)
  dsimp only [handleJoinRoom, ghostStep]
  refine ⟨?_, ?_, ?_, ?_⟩
  · -- socket bindings
    simp only [hC.sock]
  · -- user.roomId mirrors ghost membership
    intro v rr
    by_cases hv : v = u.getD s
    · subst hv
      simp [mupd, eq_comm]
    · simp only [mupd_other _ _ _ _ hv]
      exact hC.userMemb v rr
  · -- room contents
    intro rr room hroom
    by_cases hr : rr = r
    · subst hr
      simp only [mupd_same, Option.some.injEq] at hroom
      subst hroom
      rcases hst : st.rooms rr with _ | room₀
      · -- the room is created on this join
        have hnomemb : ∀ v, g.memb v ≠ some rr := by
          intro v hv
          have := hC.membRoom rr v hv
          rw [hst] at this; cases this
        simp only [hst, Option.getD_none]
        refine ⟨by simp, by simp, by simp, ?_⟩
        intro v
        by_cases hv : v = u.getD s
        · subst hv; simp [mupd]
        · constructor
          · intro hmem
            simp [hv] at hmem
          · intro hmem
            simp only [mupd_other _ _ _ _ hv] at hmem
            exact absurd hmem (hnomemb v)
      · -- the room already exists
        obtain ⟨hrid, hne, hnd, hiff⟩ := hC.roomProps rr room₀ hst
        simp only [hst, Option.getD_some]
        by_cases hmem : u.getD s ∈ room₀.users
        · simp only [hmem, if_pos]
          refine ⟨hrid, hne, hnd, ?_⟩
          intro v
          by_cases hv : v = u.getD s
          · subst hv; simp [mupd, hmem]
          · simp only [mupd_other _ _ _ _ hv]
            exact hiff v
        · simp only [hmem, if_neg, not_false_iff]
          refine ⟨hrid, by simp, ?_, ?_⟩
          · exact List.Nodup.append hnd (List.nodup_singleton _)
              (by simpa using hmem)
          · intro v
            by_cases hv : v = u.getD s
            · subst hv; simp [mupd]
            · simp only [mupd_other _ _ _ _ hv, List.mem_append,
                List.mem_singleton]
              constructor
              · intro h
                rcases h with h | h
                · exact (hiff v).mp h
                · exact absurd h hv
              · intro h
                exact Or.inl ((hiff v).mpr h)
    · simp only [mupd_other _ _ _ _ hr] at hroom
      obtain ⟨hrid, hne, hnd, hiff⟩ := hC.roomProps rr room hroom
      refine ⟨hrid, hne, hnd, ?_⟩
      intro v
      by_cases hv : v = u.getD s
      · subst hv
        simp only [mupd_same]
        constructor
        · intro h
          exact absurd h (hnotElse rr room hr hroom)
        · intro h
          simp only [Option.some.injEq] at h
          exact absurd h.symm hr
      · simp only [mupd_other _ _ _ _ hv]
        exact hiff v
  · -- ghost membership implies room existence
    intro rr v hv
    by_cases hveq : v = u.getD s
    · subst hveq
      simp only [mupd_same, Option.some.injEq] at hv
      subst hv
      simp [mupd]
    · simp only [mupd_other _ _ _ _ hveq] at hv
      have := hC.membRoom rr v hv
      by_cases hr : rr = r
      · subst hr; simp [mupd]
      · simpa [mupd_other _ _ _ _ hr] using this

/-- A user whose ghost membership is empty can be erased from the ghost
membership map without changing it. -/
theorem coupled_of_memb_none {st : ServerState} {g : Ghost} (hC : Coupled st g)
    (uid : String) (hmn : g.memb uid = none) :
    Coupled st { g with memb := mupd g.memb uid none } := by
  refine ⟨hC.sock, ?_, ?_, ?_⟩
  · intro v r
    by_cases hv : v = uid
    · subst hv
      simp only [mupd_same]
      rw [← hmn]
      exact hC.userMemb v r
    · simp only [mupd_other _ _ _ _ hv]
      exact hC.userMemb v r
  · intro r room hroom
    obtain ⟨hrid, hne, hnd, hiff⟩ := hC.roomProps r room hroom
    refine ⟨hrid, hne, hnd, ?_⟩
    intro v
    by_cases hv : v = uid
    · subst hv
      simp only [mupd_same]
      rw [← hmn]
      exact hiff v
    · simp only [mupd_other _ _ _ _ hv]
      exact hiff v
  · intro r v hv
    by_cases hveq : v = uid
    · subst hveq; simp [mupd_same] at hv
    · simp only [mupd_other _ _ _ _ hveq] at hv
      exact hC.membRoom r v hv

/-- Preservation of the coupling by `handleLeaveRoom`. -/
theorem coupled_leave (st : ServerState) (g : Ghost) (s : String)
    (hC : Coupled st g) :
    Coupled (handleLeaveRoom st s).1 (ghostStep g (.leave s)) := by
  rcases hsu : st.socketToUser s with _ | uid
  · have hgs : g.sockU s = none := by rw [← hC.sock]; exact hsu
    simp only [handleLeaveRoom, ghostStep, hsu, hgs]
    exact hC
  · have hgs : g.sockU s = some uid := by rw [← hC.sock]; exact hsu
    rcases hus : st.users uid with _ | info
    · have hmn := memb_none_of_users_none hC hus
      simp only [handleLeaveRoom, ghostStep, hsu, hgs, hus]
      exact coupled_of_memb_none hC uid hmn
    · rcases hri : info.roomId with _ | rid
      · have hmn := memb_none_of_roomId_none hC hus hri
        simp only [handleLeaveRoom, ghostStep, hsu, hgs, hus, hri]
        exact coupled_of_memb_none hC uid hmn
      · have hmemb : g.memb uid = some rid :=
          (hC.userMemb uid rid).mp ⟨info, hus, hri⟩
        have hrs := hC.membRoom rid uid hmemb
        rcases hroom : st.rooms rid with _ | room
        · rw [hroom] at hrs; cases hrs
        obtain ⟨hrid, hne, hnd, hiff⟩ := hC.roomProps rid room hroom
        simp only [handleLeaveRoom, ghostStep, hsu, hgs, hus, hri, hroom]
        by_cases hrem : room.users.filter (fun id => id ≠ uid) = []
        · -- the room becomes empty and is deleted
          rw [if_pos hrem]
          refine ⟨hC.sock, ?_, ?_, ?_⟩
          · intro v r
            by_cases hv : v = uid
            · subst hv
              simp [mupd]
            · simp only [mupd_other _ _ _ _ hv]
              exact hC.userMemb v r
          · intro r room' hroom'
            by_cases hr : r = rid
            · subst hr; simp [mupd] at hroom'
            · simp only [mupd_other _ _ _ _ hr] at hroom'
              obtain ⟨hrid', hne', hnd', hiff'⟩ := hC.roomProps r room' hroom'
              refine ⟨hrid', hne', hnd', ?_⟩
              intro v
              by_cases hv : v = uid
              · subst hv
                simp only [mupd_same]
                constructor
                · intro h
                  have := (hiff' v).mp h
                  rw [hmemb] at this
                  simp only [Option.some.injEq] at this
                  exact absurd this.symm hr
                · intro h; cases h
              · simp only [mupd_other _ _ _ _ hv]
                exact hiff' v
          · intro r v hv
            by_cases hveq : v = uid
            · subst hveq; simp [mupd_same] at hv
            · simp only [mupd_other _ _ _ _ hveq] at hv
              have hold := hC.membRoom r v hv
              by_cases hr : r = rid
              · subst hr
                have hv_mem : v ∈ room.users.filter (fun id => id ≠ uid) := by
                  rw [List.mem_filter]
                  exact ⟨(hiff v).mpr hv, by simpa using hveq⟩
                rw [hrem] at hv_mem
                cases hv_mem
              · simpa [mupd_other _ _ _ _ hr] using hold
        · -- the room still has members
          rw [if_neg hrem]
          refine ⟨hC.sock, ?_, ?_, ?_⟩
          · intro v r
            by_cases hv : v = uid
            · subst hv
              simp [mupd]
            · simp only [mupd_other _ _ _ _ hv]
              exact hC.userMemb v r
          · intro r room' hroom'
            by_cases hr : r = rid
            · subst hr
              simp only [mupd_same, Option.some.injEq] at hroom'
              subst hroom'
              refine ⟨hrid, hrem, List.Nodup.filter _ hnd, ?_⟩
              intro v
              rw [List.mem_filter]
              by_cases hv : v = uid
              · subst hv
                simp [mupd]
              · simp only [mupd_other _ _ _ _ hv]
                constructor
                · intro h
                  exact (hiff v).mp h.1
                · intro h
                  exact ⟨(hiff v).mpr h, by simpa using hv⟩
            · simp only [mupd_other _ _ _ _ hr] at hroom'
              obtain ⟨hrid', hne', hnd', hiff'⟩ := hC.roomProps r room' hroom'
              refine ⟨hrid', hne', hnd', ?_⟩
              intro v
              by_cases hv : v = uid
              · subst hv
                simp only [mupd_same]
                constructor
                · intro h
                  have := (hiff' v).mp h
                  rw [hmemb] at this
                  simp only [Option.some.injEq] at this
                  exact absurd this.symm hr
                · intro h; cases h
              · simp only [mupd_other _ _ _ _ hv]
                exact hiff' v
          · intro r v hv
            by_cases hveq : v = uid
            · subst hveq; simp [mupd_same] at hv
            · simp only [mupd_other _ _ _ _ hveq] at hv
              have hold := hC.membRoom r v hv
              by_cases hr : r = rid
              · subst hr; simp [mupd]
              · simpa [mupd_other _ _ _ _ hr] using hold

theorem ghost_leave_sockU (g : Ghost) (s : String) :
    (ghostStep g (.leave s)).sockU = g.sockU := by
  rcases h : g.sockU s with _ | uid <;> simp [ghostStep, h]

/-- Deleting the user record and the socket bindings of a user with no
ghost membership preserves the coupling. -/
theorem coupled_delete_user {st : ServerState} {g : Ghost} (hC : Coupled st g)
    (sk uid : String) (x : String → Option String)
    (hmn : g.memb uid = none) :
    Coupled
      { st with socketToUser := mupd st.socketToUser sk none
                userToSocket := x
                users := mupd st.users uid none }
      { sockU := mupd g.sockU sk none, memb := g.memb } := by
  refine ⟨by simp only [hC.sock], ?_, ?_, ?_⟩
  · intro v r
    by_cases hv : v = uid
    · subst hv
      simp only [mupd_same]
      constructor
      · rintro ⟨info, hi, _⟩; cases hi
      · intro h; rw [hmn] at h; cases h
    · simp only [mupd_other _ _ _ _ hv]
      exact hC.userMemb v r
  · exact hC.roomProps
  · exact hC.membRoom

/-- Preservation of the coupling by `handleDisconnect`. -/
theorem coupled_disconnect (st : ServerState) (g : Ghost) (s : String)
    (hC : Coupled st g) :
    Coupled (handleDisconnect st s).1 (ghostStep g (.disconnect s)) := by
  rcases hsu : st.socketToUser s with _ | uid
  · have hgs : g.sockU s = none := by rw [← hC.sock]; exact hsu
    simp only [handleDisconnect, ghostStep, hsu, hgs]
    exact hC
  · have hgs : g.sockU s = some uid := by rw [← hC.sock]; exact hsu
    have h₁ := coupled_leave st g s hC
    have hg1 : ghostStep g (.leave s) = { g with memb := mupd g.memb uid none } := by
      simp [ghostStep, hgs]
    rw [hg1] at h₁
    rcases hLR : handleLeaveRoom st s with ⟨st₁, outs⟩
    rw [hLR] at h₁
    have hsock₁ : st₁.socketToUser = g.sockU := h₁.sock
    have hmn : (mupd g.memb uid none) uid = none := mupd_same _ _ _
    have h₂ := coupled_delete_user h₁ s uid
      (mupd st₁.userToSocket uid none) hmn
    simp only [handleDisconnect, ghostStep, hsu, hgs, hLR]
    exact h₂

/-- Preservation of the coupling by one membership event, for
single-room joins. -/
theorem coupled_step (st : ServerState) (g : Ghost) (e : SEvent)
    (hC : Coupled st g)
    (hok : (match e with
            | .join s r u _ => okJoinB st s r u
            | _ => true) = true) :
    Coupled (serverStep st e) (ghostStep g e) := by
  cases e with
  | join s r u now => exact coupled_join st g s r u now hC (by simpa using hok)
  | leave s => exact coupled_leave st g s hC
  | disconnect s => exact coupled_disconnect st g s hC

/-- The coupling holds after every single-room trace. -/
theorem coupled_run (t : List SEvent) : ∀ st g, Coupled st g →
    validB st t = true → Coupled (serverRun st t) (ghostRun g t) := by
  induction t with
  | nil => intro st g hC _; exact hC
  | cons e t ih =>
    intro st g hC hv
    simp only [validB, Bool.and_eq_true] at hv
    exact ih _ _ (coupled_step st g e hC hv.1) hv.2

/-- C5: the quality tier computed by `adjustMediaQuality` is a pure
function of the latest sample and agrees with the spec's ordered rules
(most severe outcome winning); in particular rtt = 400, loss = 1,
bandwidth = 3,000,000 yields `low` because the RTT rule dominates. -/
theorem adjustQualityTier_matches_spec :
    (∀ bandwidth packetLoss rtt : ℚ,
        adjustQualityTier bandwidth packetLoss rtt =
          specQualityTier bandwidth packetLoss rtt) ∧
    adjustQualityTier 3000000 1 400 = .low := by
  constructor
  · intro b l r
    dsimp only [adjustQualityTier, specQualityTier]
    split_ifs <;> simp_all
  · dsimp only [adjustQualityTier]
    norm_num

/-- C10: duplicate suppression is bounded — a message whose id
(type + sender + first 50 chars of sdp/candidate) is already recorded
is dropped and the set is unchanged; a new id is processed; recording
the id empties the whole set as soon as its size exceeds 1000 and
otherwise appends the id; after a clear the same message is processed
again (and its id re-recorded). -/
theorem dedupeStep_bounded :
    ∀ (ids : List String) (m : SignalingMessage),
      (getMessageId m ∈ ids → dedupeStep ids m = (false, ids)) ∧
      (getMessageId m ∉ ids →
        (dedupeStep ids m).1 = true ∧
        (ids.length + 1 > 1000 → (dedupeStep ids m).2 = []) ∧
        (ids.length + 1 ≤ 1000 →
          (dedupeStep ids m).2 = ids ++ [getMessageId m])) ∧
      dedupeStep [] m = (true, [getMessageId m]) := by
  intro ids m
  refine ⟨?_, ?_, ?_⟩
  · intro h
    simp [dedupeStep, h]
  · intro h
    refine ⟨by simp [dedupeStep, h], ?_, ?_⟩
    · intro hlen
      simp [dedupeStep, h, hlen]
    · intro hlen
      have hno : ¬ (1000 < ids.length + 1) := by omega
      simp [dedupeStep, h, hno]
  · simp [dedupeStep]

set_option maxRecDepth 100000 in
/-- Witness for C10 at concrete inputs: a 1000-strong id set clears
entirely on the next distinct message, and a recorded id is dropped as
a duplicate. -/
theorem dedupeStep_bounded_witness :
    dedupeStep thousandIds sampleOfferMsg = (true, []) ∧
    dedupeStep ["offer-alice-v=0 o=- 42"] sampleOfferMsg =
      (false, ["offer-alice-v=0 o=- 42"]) := by
  constructor
  · have h := dedupeStep_bounded thousandIds sampleOfferMsg
    have hc : getMessageId sampleOfferMsg ∉ thousandIds := by decide
    exact Prod.ext ((h.2.1 hc).1) ((h.2.1 hc).2.1 (by decide))
  · exact (dedupeStep_bounded ["offer-alice-v=0 o=- 42"] sampleOfferMsg).1
      (by decide)

/-- C6: a signaling message from a socket not registered to any room is
answered with an `error`-typed signaling message to that sender only;
nothing is unicast or broadcast, and the server state (registry maps,
statistics, queues) is left completely unchanged.  The handler is a
total function, so nothing is thrown to the transport layer. -/
theorem handleSignaling_unregistered_error (st : ServerState)
    (socketId : String) (m : SignalingMessage) (startTime endTime : Nat)
    (h : notRegisteredB st socketId = true) :
    handleSignaling st socketId m startTime endTime =
      (st, [SOut.emitTo socketId "signaling"
        (Payload.signaling { type := "error", error := some "用户未加入房间" })]) := by
  unfold notRegisteredB at h
  rcases hsu : st.socketToUser socketId with _ | uid
  · simp [handleSignaling, hsu]
  · simp only [hsu] at h
    rcases hus : st.users uid with _ | info
    · simp [handleSignaling, hsu, hus]
    · simp only [hus] at h
      rcases hri : info.roomId with _ | rid
      · simp [handleSignaling, hsu, hus, hri]
      · rw [hri] at h
        simp at h

/-- Witness for C6: a fresh server knows no sockets, so any message is
bounced back as an error with no state change. -/
theorem handleSignaling_unregistered_error_witness :
    handleSignaling initServer "sock" sampleOfferMsg 3 7 =
      (initServer, [SOut.emitTo "sock" "signaling"
        (Payload.signaling { type := "error", error := some "用户未加入房间" })]) :=
  handleSignaling_unregistered_error initServer "sock" sampleOfferMsg 3 7
    (by decide)

theorem recordLatency_messagesReceived (st : ServerState) (l : Nat) :
    (recordLatency st l).stats.messagesReceived =
      st.stats.messagesReceived := by
  simp [recordLatency]

theorem sendMessage_messagesReceived (st : ServerState)
    (m : SignalingMessage) (sk rm : String) :
    ((sendMessage st m sk rm).1).stats.messagesReceived =
      st.stats.messagesReceived := by
  unfold sendMessage
  rcases htid : m.toId with _ | tgt
  · simp
  · rcases hts : st.userToSocket tgt with _ | tsock <;> simp [hts]

theorem queueMessage_stats (st : ServerState) (rm : String)
    (m : SignalingMessage) : (queueMessage st rm m).stats = st.stats := by
  simp [queueMessage]

/-- C9: for a registered sender, an `architecture-mode` message and any
`sfu-`-prefixed message are broadcast to the room and the handler
returns before the statistics update — the state (hence
`messagesReceived`, the latency window and `messagesDelayed`) is
unchanged; any other message kind increments `messagesReceived`. -/
theorem handleSignaling_arch_sfu_uncounted (st : ServerState)
    (socketId : String) (m : SignalingMessage) (uid : String)
    (info : UserInfo) (rid : String) (startTime endTime : Nat)
    (hsu : st.socketToUser socketId = some uid)
    (hus : st.users uid = some info)
    (hri : info.roomId = some rid) :
    (m.type = "architecture-mode" →
      handleSignaling st socketId m startTime endTime =
        (st, [SOut.broadcastExcept rid socketId "architecture-mode"
          (Payload.archMode m.architectureMode rid)])) ∧
    (m.type ≠ "architecture-mode" → startsWithB m.type "sfu-" = true →
      handleSignaling st socketId m startTime endTime =
        (st, [SOut.broadcastExcept rid socketId "signaling"
          (Payload.signaling
            { m with fromId := some uid, roomId := some rid })])) ∧
    (m.type ≠ "architecture-mode" → startsWithB m.type "sfu-" = false →
      (handleSignaling st socketId m startTime endTime).1.stats.messagesReceived =
        st.stats.messagesReceived + 1) := by
  refine ⟨?_, ?_, ?_⟩
  · intro hty
    simp [handleSignaling, hsu, hus, hri, hty]
  · intro hty hsfu
    simp [handleSignaling, hsu, hus, hri, hty, hsfu]
  · intro hty hsfu
    simp only [handleSignaling, hsu, hus, hri]
    rw [if_neg (by simpa using hty), if_neg (by simp [hsfu])]
    by_cases hice : m.type = "ice-candidate"
    · rw [if_pos (by simpa using hice)]
      simp [recordLatency_messagesReceived, queueMessage]
    · rw [if_neg (by simpa using hice)]
      rcases hsm : sendMessage
          { st with stats :=
              { st.stats with
                  messagesReceived := st.stats.messagesReceived + 1
                  lastMessageTime := startTime } }
          { m with fromId := some uid, roomId := some rid }
          socketId rid with ⟨st₂, outs₂⟩
      have hstats := sendMessage_messagesReceived
        { st with stats :=
            { st.stats with
                messagesReceived := st.stats.messagesReceived + 1
                lastMessageTime := startTime } }
        { m with fromId := some uid, roomId := some rid } socketId rid
      rw [hsm] at hstats
      simp only [hsm]
      simp [recordLatency_messagesReceived]
      simpa using hstats

/-- Witness for C9 on a server with one joined user: the
architecture-mode and sfu messages leave the state unchanged and are
broadcast; an offer is counted. -/
theorem handleSignaling_arch_sfu_uncounted_witness :
    handleSignaling stJoined "s" archMsgFixture 3 9 =
      (stJoined, [SOut.broadcastExcept "A" "s" "architecture-mode"
        (Payload.archMode (some "sfu") "A")]) ∧
    handleSignaling stJoined "s" sfuMsgFixture 3 9 =
      (stJoined, [SOut.broadcastExcept "A" "s" "signaling"
        (Payload.signaling
          { sfuMsgFixture with fromId := some "u", roomId := some "A" })]) ∧
    (handleSignaling stJoined "s" sampleOfferMsg 3 9).1.stats.messagesReceived =
      stJoined.stats.messagesReceived + 1 := by
  have h₁ := handleSignaling_arch_sfu_uncounted stJoined "s" archMsgFixture
    "u" ⟨"u", some "A", true, 0⟩ "A" 3 9 (by decide) (by decide) (by decide)
  have h₂ := handleSignaling_arch_sfu_uncounted stJoined "s" sfuMsgFixture
    "u" ⟨"u", some "A", true, 0⟩ "A" 3 9 (by decide) (by decide) (by decide)
  have h₃ := handleSignaling_arch_sfu_uncounted stJoined "s" sampleOfferMsg
    "u" ⟨"u", some "A", true, 0⟩ "A" 3 9 (by decide) (by decide) (by decide)
  exact ⟨h₁.1 (by decide), h₂.2.1 (by decide) (by decide),
    h₃.2.2 (by decide) (by decide)⟩

theorem switchArchitecture_fields (st : ClientState) (mode : ArchMode) :
    (switchArchitecture st mode).1.currentArchitectureMode = mode ∧
    (switchArchitecture st mode).1.roomUserCount = st.roomUserCount ∧
    (switchArchitecture st mode).1.options = st.options ∧
    (switchArchitecture st mode).1.sfuAdapter = st.sfuAdapter := by
  unfold switchArchitecture
  by_cases h : mode = st.currentArchitectureMode
  · simp [h]
  · rw [if_neg h]
    split_ifs <;> simp_all <;> (try (split_ifs <;> simp_all))

theorem checkAndSwitch_auto_aligns (st : ClientState)
    (h : st.options.architectureMode = .auto)
    (h2 : st.currentArchitectureMode ≠ .auto) :
    ((checkAndSwitchArchitecture st).1.currentArchitectureMode = .sfu ↔
      resolvedThreshold st.options ≤ st.roomUserCount) ∧
    (checkAndSwitchArchitecture st).1.roomUserCount = st.roomUserCount ∧
    (checkAndSwitchArchitecture st).1.options = st.options := by
  unfold checkAndSwitchArchitecture
  rw [if_neg (by simp [h])]
  by_cases hth : resolvedThreshold st.options ≤ st.roomUserCount
  · rcases hcur : st.currentArchitectureMode with _ | _ | _
    · -- mesh: promote to sfu
      obtain ⟨ha, hb, hc, _⟩ := switchArchitecture_fields st .sfu
      simp [hth, hcur, ha, hb, hc]
    · -- already sfu: no transition
      simp [hth, hcur]
    · exact absurd hcur h2
  · rcases hcur : st.currentArchitectureMode with _ | _ | _
    · -- mesh stays mesh
      simp [hth, hcur]
    · -- sfu: demote to mesh
      obtain ⟨ha, hb, hc, _⟩ := switchArchitecture_fields st .mesh
      simp [hth, hcur, ha, hb, hc]
    · exact absurd hcur h2

theorem checkAndSwitch_noop (st : ClientState)
    (h : st.currentArchitectureMode = .sfu ↔
      resolvedThreshold st.options ≤ st.roomUserCount) :
    checkAndSwitchArchitecture st = (st, []) := by
  unfold checkAndSwitchArchitecture
  by_cases ha : st.options.architectureMode = .auto
  · rw [if_neg (by simp [ha])]
    by_cases hth : resolvedThreshold st.options ≤ st.roomUserCount
    · have hcur : st.currentArchitectureMode = .sfu := h.mpr hth
      simp [hth, hcur]
    · have hcur : st.currentArchitectureMode ≠ .sfu := fun hc => hth (h.mp hc)
      simp [hth, hcur]
  · rw [if_pos (by simpa using ha)]

/-- C4: under configured mode `auto`, after any room-membership update
(`room-joined`, `user-joined`, `user-left`) the current mode is `sfu`
exactly when the room user count has reached the (defaulted)
`meshToSFUThreshold`, and a re-evaluation whose target mode equals the
current one performs no transition at all. -/
theorem clientStep_auto_mode_matches_threshold (st : ClientState)
    (e : CEvent) (hauto : st.options.architectureMode = .auto)
    (hcur : st.currentArchitectureMode ≠ .auto)
    (hev : isMembershipEvent e = true) :
    ((clientStep st e).1.currentArchitectureMode = .sfu ↔
      resolvedThreshold st.options ≤ (clientStep st e).1.roomUserCount) ∧
    ((st.currentArchitectureMode = .sfu ↔
        resolvedThreshold st.options ≤ st.roomUserCount) →
      checkAndSwitchArchitecture st = (st, [])) := by
  refine ⟨?_, fun h => checkAndSwitch_noop st h⟩
  cases e with
  | roomJoined r uid users =>
    have hkey := checkAndSwitch_auto_aligns
      { st with roomId := some r, userId := some uid
                roomUserCount := users.length + 1 }
      (by simpa using hauto) (by simpa using hcur)
    rcases hck : checkAndSwitchArchitecture
        { st with roomId := some r, userId := some uid
                  roomUserCount := users.length + 1 } with ⟨st₂, acts⟩
    rw [hck] at hkey
    obtain ⟨ha, hb, hc⟩ := hkey
    dsimp only at ha hb hc
    by_cases hmp : st₂.multiPeerMode = true ∧
        st₂.currentArchitectureMode = ArchMode.mesh
    · have hnot : ¬ (resolvedThreshold st.options ≤ users.length + 1) := by
        intro hh
        have h2 := ha.mpr hh
        rw [hmp.2] at h2
        exact absurd h2 (by decide)
      simp [clientStep, hauto, hck, hmp, ha, hb, hc] <;> omega
    · simp [clientStep, hauto, hck, hmp, ha, hb, hc]
  | userJoined stable =>
    have hkey := checkAndSwitch_auto_aligns
      { st with roomUserCount := st.roomUserCount + 1 }
      (by simpa using hauto) (by simpa using hcur)
    rcases hck : checkAndSwitchArchitecture
        { st with roomUserCount := st.roomUserCount + 1 } with ⟨st₂, acts⟩
    rw [hck] at hkey
    obtain ⟨ha, hb, hc⟩ := hkey
    dsimp only at ha hb hc
    simp [clientStep, hauto, hck, ha, hb, hc]
  | userLeft uid =>
    by_cases hmp : st.multiPeerMode = true ∧ uid ∈ st.peerConnections
    · have hkey := checkAndSwitch_auto_aligns
        { st with
            peerConnections :=
              List.filter (fun x => !decide (x = uid)) st.peerConnections
            roomUserCount := st.roomUserCount - 1
            multiPeerMode := true }
        (by simpa using hauto) (by simpa using hcur)
      rcases hck : checkAndSwitchArchitecture
          { st with
              peerConnections :=
                List.filter (fun x => !decide (x = uid)) st.peerConnections
              roomUserCount := st.roomUserCount - 1
              multiPeerMode := true } with ⟨st₂, acts⟩
      rw [hck] at hkey
      obtain ⟨ha, hb, hc⟩ := hkey
      dsimp only at ha hb hc
      simp [clientStep, hauto, hck, hmp, ha, hb, hc]
    · have hkey := checkAndSwitch_auto_aligns
        { st with roomUserCount := st.roomUserCount - 1 }
        (by simpa using hauto) (by simpa using hcur)
      rcases hck : checkAndSwitchArchitecture
          { st with roomUserCount := st.roomUserCount - 1 } with ⟨st₂, acts⟩
      rw [hck] at hkey
      obtain ⟨ha, hb, hc⟩ := hkey
      dsimp only at ha hb hc
      simp [clientStep, hauto, hck, hmp, ha, hb, hc]
  | archModeMsg m => simp [isMembershipEvent] at hev

/-- Witness for C4, scenario D: threshold 3, a third user joins a
2-user room and the mode flips to `sfu`; a user then leaves and the
mode reverts to `mesh`. -/
theorem clientStep_auto_mode_matches_threshold_witness :
    (((clientStep
        { initClient (some .auto) (some 3) false with roomUserCount := 2 }
        (.userJoined false)).1.currentArchitectureMode = ArchMode.sfu ↔
      resolvedThreshold
          { initClient (some .auto) (some 3) false with
              roomUserCount := 2 }.options ≤
        (clientStep
          { initClient (some .auto) (some 3) false with roomUserCount := 2 }
          (.userJoined false)).1.roomUserCount) ∧
    (clientStep
        { initClient (some .auto) (some 3) false with roomUserCount := 2 }
        (.userJoined false)).1.currentArchitectureMode = ArchMode.sfu) ∧
    (clientStep
        { initClient (some .auto) (some 3) false with
            roomUserCount := 3, currentArchitectureMode := .sfu }
        (.userLeft "x")).1.currentArchitectureMode = ArchMode.mesh := by
  refine ⟨⟨?_, by decide⟩, by decide⟩
  exact (clientStep_auto_mode_matches_threshold
    { initClient (some .auto) (some 3) false with roomUserCount := 2 }
    (.userJoined false) (by decide) (by decide) (by decide)).1

theorem switchArchitecture_no_sfu_actions (st : ClientState)
    (mode : ArchMode) (h : st.sfuAdapter = false) :
    (switchArchitecture st mode).1.sfuAdapter = false ∧
    CAction.sfuConnect ∉ (switchArchitecture st mode).2 ∧
    CAction.sfuPublish ∉ (switchArchitecture st mode).2 := by
  unfold switchArchitecture
  split_ifs <;> simp_all <;> (try (split_ifs <;> simp_all))

theorem checkAndSwitch_no_sfu_actions (st : ClientState)
    (h : st.sfuAdapter = false) :
    (checkAndSwitchArchitecture st).1.sfuAdapter = false ∧
    CAction.sfuConnect ∉ (checkAndSwitchArchitecture st).2 ∧
    CAction.sfuPublish ∉ (checkAndSwitchArchitecture st).2 := by
  unfold checkAndSwitchArchitecture
  by_cases h0 : st.options.architectureMode ≠ ArchMode.auto
  · simp [h0, h]
  · rw [if_neg h0]
    dsimp only
    by_cases c1 : (decide (resolvedThreshold st.options ≤ st.roomUserCount) &&
        decide (st.currentArchitectureMode = ArchMode.mesh)) = true
    · rw [if_pos c1]
      exact switchArchitecture_no_sfu_actions st .sfu h
    · rw [if_neg c1]
      by_cases c2 : (!decide (resolvedThreshold st.options ≤ st.roomUserCount) &&
          decide (st.currentArchitectureMode = ArchMode.sfu)) = true
      · rw [if_pos c2]
        exact switchArchitecture_no_sfu_actions st .mesh h
      · rw [if_neg c2]
        exact ⟨h, by simp, by simp⟩

theorem not_mem_offer_ite (a : CAction) (c : Prop) [Decidable c]
    (h1 : a ≠ CAction.createOffer) :
    a ∉ (if c then [CAction.createOffer] else []) := by
  split_ifs <;> simp [h1]

theorem clientStep_no_sfu_actions (st : ClientState) (e : CEvent)
    (h : st.sfuAdapter = false) :
    (clientStep st e).1.sfuAdapter = false ∧
    CAction.sfuConnect ∉ (clientStep st e).2 ∧
    CAction.sfuPublish ∉ (clientStep st e).2 := by
  cases e with
  | roomJoined r uid users =>
    rcases hck : checkAndSwitchArchitecture
        { st with roomId := some r, userId := some uid
                  roomUserCount := users.length + 1 } with ⟨st₂, acts⟩
    have hkey := checkAndSwitch_no_sfu_actions
      { st with roomId := some r, userId := some uid
                roomUserCount := users.length + 1 } (by simpa using h)
    rw [hck] at hkey
    dsimp only at hkey
    by_cases hauto : st.options.architectureMode = ArchMode.auto
    · by_cases hmp : st₂.multiPeerMode = true ∧
          st₂.currentArchitectureMode = ArchMode.mesh
      · simpa [clientStep, hauto, hck, hmp, List.mem_map] using hkey
      · simpa [clientStep, hauto, hck, hmp] using hkey
    · by_cases hmp : st.multiPeerMode = true ∧
          st.currentArchitectureMode = ArchMode.mesh
      · simp [clientStep, hauto, hmp, h, List.mem_map]
      · simp [clientStep, hauto, hmp, h]
  | userJoined stable =>
    rcases hck : checkAndSwitchArchitecture
        { st with roomUserCount := st.roomUserCount + 1 } with ⟨st₂, acts⟩
    have hkey := checkAndSwitch_no_sfu_actions
      { st with roomUserCount := st.roomUserCount + 1 } (by simpa using h)
    rw [hck] at hkey
    dsimp only at hkey
    simp only [clientStep]
    by_cases hauto : st.options.architectureMode = ArchMode.auto
    · rw [if_pos hauto, hck]
      dsimp only
      refine ⟨hkey.1, ?_, ?_⟩
      · simp only [List.mem_append]
        rintro (hx | hx)
        · exact not_mem_offer_ite _ _ (by decide) hx
        · exact hkey.2.1 hx
      · simp only [List.mem_append]
        rintro (hx | hx)
        · exact not_mem_offer_ite _ _ (by decide) hx
        · exact hkey.2.2 hx
    · rw [if_neg hauto]
      dsimp only
      refine ⟨by simpa using h, ?_, ?_⟩
      · simp only [List.mem_append]
        rintro (hx | hx)
        · exact not_mem_offer_ite _ _ (by decide) hx
        · simp at hx
      · simp only [List.mem_append]
        rintro (hx | hx)
        · exact not_mem_offer_ite _ _ (by decide) hx
        · simp at hx
  | userLeft uid =>
    by_cases hmp : st.multiPeerMode = true ∧ uid ∈ st.peerConnections
    · rcases hck : checkAndSwitchArchitecture
          { st with
              peerConnections :=
                List.filter (fun x => !decide (x = uid)) st.peerConnections
              roomUserCount := st.roomUserCount - 1
              multiPeerMode := true } with ⟨st₂, acts⟩
      have hkey := checkAndSwitch_no_sfu_actions
        { st with
            peerConnections :=
              List.filter (fun x => !decide (x = uid)) st.peerConnections
            roomUserCount := st.roomUserCount - 1
            multiPeerMode := true } (by simpa using h)
      rw [hck] at hkey
      dsimp only at hkey
      by_cases hauto : st.options.architectureMode = ArchMode.auto
      · simpa [clientStep, hauto, hck, hmp] using hkey
      · simp [clientStep, hauto, hmp, h]
    · rcases hck : checkAndSwitchArchitecture
          { st with roomUserCount := st.roomUserCount - 1 } with ⟨st₂, acts⟩
      have hkey := checkAndSwitch_no_sfu_actions
        { st with roomUserCount := st.roomUserCount - 1 } (by simpa using h)
      rw [hck] at hkey
      dsimp only at hkey
      by_cases hauto : st.options.architectureMode = ArchMode.auto
      · simpa [clientStep, hauto, hck, hmp] using hkey
      · simp [clientStep, hauto, hmp, h]
  | archModeMsg m =>
    by_cases hm : m = st.currentArchitectureMode
    · simp [clientStep, hm, h]
    · have hkey := switchArchitecture_no_sfu_actions st m h
      simpa [clientStep, hm] using hkey

/-- C8 (amended): from any state without a constructed SFU adapter (no
`sfuOptions` configured), no sequence of coordinator events ever emits
an SFU connect or publish action — the SFU connection step of
`switchArchitecture` is skipped.  (The mode switch itself and the mesh
teardown still happen; see the counterexample.) -/
theorem clientRun_never_connects_sfu (t : List CEvent) : ∀ st : ClientState,
    st.sfuAdapter = false →
    CAction.sfuConnect ∉ (clientRun st t).2 ∧
    CAction.sfuPublish ∉ (clientRun st t).2 := by
  induction t with
  | nil => intro st _; simp [clientRun]
  | cons e t ih =>
    intro st h
    obtain ⟨h₁, h₂, h₃⟩ := clientStep_no_sfu_actions st e h
    rcases hstep : clientStep st e with ⟨st₁, acts₁⟩
    rw [hstep] at h₁ h₂ h₃
    obtain ⟨ih₂, ih₃⟩ := ih st₁ h₁
    rcases hrun : clientRun st₁ t with ⟨st₂, acts₂⟩
    rw [hrun] at ih₂ ih₃
    simp only [clientRun, hstep, hrun]
    constructor
    · simp only [List.mem_append]
      rintro (hx | hx)
      · exact h₂ hx
      · exact ih₂ hx
    · simp only [List.mem_append]
      rintro (hx | hx)
      · exact h₃ hx
      · exact ih₃ hx

/-- Witness for C8: an auto-mode client with threshold 3 and no SFU
options crosses the threshold; no SFU connection is ever attempted. -/
theorem clientRun_never_connects_sfu_witness :
    CAction.sfuConnect ∉
      (clientRun (initClient (some .auto) (some 3) false)
        [CEvent.roomJoined "A" "me" ["u1", "u2"]]).2 ∧
    CAction.sfuPublish ∉
      (clientRun (initClient (some .auto) (some 3) false)
        [CEvent.roomJoined "A" "me" ["u1", "u2"]]).2 :=
  clientRun_never_connects_sfu [CEvent.roomJoined "A" "me" ["u1", "u2"]]
    (initClient (some .auto) (some 3) false) (by decide)

/-- Counterexample to C8 as stated: when the threshold is crossed with
no SFU endpoint configured, the current mode does *not* stay `mesh`
(it flips to `sfu`) and the existing mesh peer connections *are* torn
down; only the connection attempt is skipped. -/
theorem clientStep_no_sfu_counterexample :
    (clientStep clientNoSfu (.userJoined false)).1.currentArchitectureMode =
      ArchMode.sfu ∧
    (clientStep clientNoSfu (.userJoined false)).1.peerConnections = [] ∧
    (clientStep clientNoSfu (.userJoined false)).1.peerConnection = false ∧
    CAction.sfuConnect ∉ (clientStep clientNoSfu (.userJoined false)).2 := by
  decide

theorem leave_twice_noop (st : ServerState) (s : String) :
    handleLeaveRoom (handleLeaveRoom st s).1 s = ((handleLeaveRoom st s).1, []) := by
  rcases hsu : st.socketToUser s with _ | uid
  · simp [handleLeaveRoom, hsu]
  rcases hus : st.users uid with _ | info
  · simp [handleLeaveRoom, hsu, hus]
  rcases hri : info.roomId with _ | rid
  · simp [handleLeaveRoom, hsu, hus, hri]
  rcases hroom : st.rooms rid with _ | room
  · simp [handleLeaveRoom, hsu, hus, hri, hroom, mupd]
  · by_cases hrem : room.users.filter (fun id => id ≠ uid) = [] <;>
      simp [handleLeaveRoom, hsu, hus, hri, hroom, hrem, mupd]

/-- C7 (amended): a second `leave` in a row is a complete no-op (no
error, no state change, no emission); a `disconnect` after a `leave`
also leaves all rooms unchanged and emits nothing, but it does perform
its deletion step — removing the user record and the socket-identity
mappings of the user still bound to the socket. -/
theorem leave_idempotent_disconnect_deletes (st : ServerState) (s : String) :
    handleLeaveRoom (handleLeaveRoom st s).1 s = ((handleLeaveRoom st s).1, []) ∧
    (handleDisconnect (handleLeaveRoom st s).1 s).1.rooms =
      (handleLeaveRoom st s).1.rooms ∧
    (handleDisconnect (handleLeaveRoom st s).1 s).2 = [] ∧
    (match (handleLeaveRoom st s).1.socketToUser s with
     | none => (handleDisconnect (handleLeaveRoom st s).1 s).1 =
         (handleLeaveRoom st s).1
     | some uid => (handleDisconnect (handleLeaveRoom st s).1 s).1 =
         { (handleLeaveRoom st s).1 with
             socketToUser := mupd (handleLeaveRoom st s).1.socketToUser s none
             userToSocket := mupd (handleLeaveRoom st s).1.userToSocket uid none
             users := mupd (handleLeaveRoom st s).1.users uid none }) := by
  have hA := leave_twice_noop st s
  rcases hsu : (handleLeaveRoom st s).1.socketToUser s with _ | uid
  · have hd : handleDisconnect (handleLeaveRoom st s).1 s =
        ((handleLeaveRoom st s).1, []) := by
      simp [handleDisconnect, hsu]
    refine ⟨hA, by rw [hd], by rw [hd], ?_⟩
    simp only [hsu]
    rw [hd]
  · have hd : handleDisconnect (handleLeaveRoom st s).1 s =
        ({ (handleLeaveRoom st s).1 with
            socketToUser := mupd (handleLeaveRoom st s).1.socketToUser s none
            userToSocket := mupd (handleLeaveRoom st s).1.userToSocket uid none
            users := mupd (handleLeaveRoom st s).1.users uid none }, []) := by
      simp only [handleDisconnect, hsu, hA]
    refine ⟨hA, by rw [hd], by rw [hd], ?_⟩
    simp only [hsu]
    rw [hd]

/-- Counterexample to C7 as stated: `disconnect` after `leave` is not a
state no-op — the user record of "u" survives the leave but is deleted
by the disconnect, so the users map differs. -/
theorem leave_then_disconnect_counterexample :
    getUser stLeft "u" = some ⟨"u", none, false, 0⟩ ∧
    getUser (handleDisconnect stLeft "s").1 "u" = none := by decide

/-- C1 (amended): for traces of join/leave/disconnect events in which
no join targets a user currently in a *different* room, a room is
absent from the registry exactly when no user's spec-level membership
(`ghostRun`: joined and not since left or disconnected) points to it,
and an existing room's member list holds exactly the users whose
spec-level membership is that room. -/
theorem registry_rooms_match_spec (t : List SEvent)
    (hv : validB initServer t = true) (r : String) :
    ((getRoom (serverRun initServer t) r = none) ↔
      ∀ u, (ghostRun initGhost t).memb u ≠ some r) ∧
    (∀ room, getRoom (serverRun initServer t) r = some room →
      ∀ u, (u ∈ room.users ↔ (ghostRun initGhost t).memb u = some r)) := by
  have hC := coupled_run t initServer initGhost coupled_init hv
  constructor
  · constructor
    · intro hnone u hmemb
      have hex := hC.membRoom r u hmemb
      unfold getRoom at hnone
      rw [hnone] at hex
      cases hex
    · intro hall
      unfold getRoom
      rcases hrm : (serverRun initServer t).rooms r with _ | room
      · rfl
      · obtain ⟨_, hne, _, hiff⟩ := hC.roomProps r room hrm
        rcases hus : room.users with _ | ⟨u0, rest⟩
        · exact absurd hus hne
        · have hu0 : u0 ∈ room.users := by rw [hus]; exact List.mem_cons_self _ _
          exact absurd ((hiff u0).mp hu0) (hall u0)
  · intro room hroom u
    exact (hC.roomProps r room hroom).2.2.2 u

/-- Witness for C1 on a concrete single-room trace. -/
theorem registry_rooms_match_spec_witness :
    validB initServer traceOk = true ∧
    ((getRoom (serverRun initServer traceOk) "A" = none ↔
        ∀ u, (ghostRun initGhost traceOk).memb u ≠ some "A") ∧
      (∀ room, getRoom (serverRun initServer traceOk) "A" = some room →
        ∀ u, (u ∈ room.users ↔
          (ghostRun initGhost traceOk).memb u = some "A"))) :=
  ⟨by decide, registry_rooms_match_spec traceOk (by decide) "A"⟩

/-- Counterexample to C1 as stated: after `traceCross` the user "u" has
disconnected (its record is gone and its spec-level membership is
empty), yet room "A" still exists and still lists "u". -/
theorem registry_rooms_counterexample :
    getRoom (serverRun initServer traceCross) "A" = some ⟨"A", ["u"], 0⟩ ∧
    getUser (serverRun initServer traceCross) "u" = none ∧
    (ghostRun initGhost traceCross).memb "u" = none := by decide

/-- C3 (amended): for single-room traces, a user's `roomId` is defined
exactly when the user appears in exactly one room's member list. -/
theorem user_roomId_iff_unique_membership (t : List SEvent)
    (hv : validB initServer t = true) (u : String) :
    (∃ info, getUser (serverRun initServer t) u = some info ∧
        info.roomId.isSome = true) ↔
    (∃ r room, getRoom (serverRun initServer t) r = some room ∧
      u ∈ room.users ∧
      ∀ r' room', getRoom (serverRun initServer t) r' = some room' →
        u ∈ room'.users → r' = r) := by
  have hC := coupled_run t initServer initGhost coupled_init hv
  constructor
  · rintro ⟨info, hi, hsome⟩
    rcases hri : info.roomId with _ | r
    · rw [hri] at hsome; cases hsome
    have hmemb : (ghostRun initGhost t).memb u = some r :=
      (hC.userMemb u r).mp ⟨info, hi, hri⟩
    have hex := hC.membRoom r u hmemb
    rcases hrm : (serverRun initServer t).rooms r with _ | room
    · rw [hrm] at hex; cases hex
    refine ⟨r, room, hrm, ((hC.roomProps r room hrm).2.2.2 u).mpr hmemb, ?_⟩
    intro r' room' hroom' hmem'
    have hm' := ((hC.roomProps r' room' hroom').2.2.2 u).mp hmem'
    rw [hmemb] at hm'
    simp only [Option.some.injEq] at hm'
    exact hm'.symm
  · rintro ⟨r, room, hroom, hmem, _⟩
    have hmemb := ((hC.roomProps r room hroom).2.2.2 u).mp hmem
    obtain ⟨info, hi, hri⟩ := (hC.userMemb u r).mpr hmemb
    exact ⟨info, hi, by simp [hri]⟩

/-- Witness for C3 on a concrete single-room trace. -/
theorem user_roomId_iff_unique_membership_witness :
    validB initServer traceOk = true ∧
    ((∃ info, getUser (serverRun initServer traceOk) "u2" = some info ∧
        info.roomId.isSome = true) ↔
      (∃ r room, getRoom (serverRun initServer traceOk) r = some room ∧
        "u2" ∈ room.users ∧
        ∀ r' room', getRoom (serverRun initServer traceOk) r' = some room' →
          "u2" ∈ room'.users → r' = r)) :=
  ⟨by decide, user_roomId_iff_unique_membership traceOk (by decide) "u2"⟩

/-- Counterexample to C3 as stated: after joining a second room, the
user's `roomId` is defined (room "B") but the user appears in *two*
rooms' member lists — the first join's membership is never removed. -/
theorem user_roomId_unique_counterexample :
    getUser (serverRun initServer traceTwoRooms) "u" =
      some ⟨"u", some "B", true, 1⟩ ∧
    getRoom (serverRun initServer traceTwoRooms) "A" =
      some ⟨"A", ["u"], 0⟩ ∧
    getRoom (serverRun initServer traceTwoRooms) "B" =
      some ⟨"B", ["u"], 1⟩ := by decide

theorem poolInv_init : PoolInv initPool := by
  refine ⟨rfl, by simp [initPool], by simp [initPool], rfl, ?_⟩
  simp [initPool]

theorem poolInv_step (st : PoolState) (e : PEvent) (hI : PoolInv st)
    (hok : poolOkB st e = true) : PoolInv (poolStep st e) := by
  obtain ⟨h1, h2, h3, h4, h5⟩ := hI
  cases e with
  | acquire k =>
    have hfa : st.nextHandle ∉ st.activeConnections := fun hx =>
      absurd (h5 _ (Finset.mem_union_left _ hx)) (lt_irrefl _)
    have hfp : st.nextHandle ∉ st.pendingClose := fun hx =>
      absurd (h5 _ (Finset.mem_union_right _ hx)) (lt_irrefl _)
    have hcard : (insert st.nextHandle st.activeConnections).card =
        st.activeConnections.card + 1 := Finset.card_insert_of_not_mem hfa
    refine ⟨?_, ?_, ?_, ?_, ?_⟩
    · simp only [poolStep, poolAcquire, hcard]
      omega
    · simp only [poolStep, poolAcquire, hcard]
      omega
    · simp only [poolStep, poolAcquire]
      exact Finset.disjoint_insert_left.mpr ⟨hfp, h3⟩
    · simp only [poolStep, poolAcquire]
    · simp only [poolStep, poolAcquire]
      intro x hx
      rcases Finset.mem_union.mp hx with hx | hx
      · rcases Finset.mem_insert.mp hx with rfl | hx
        · omega
        · have := h5 _ (Finset.mem_union_left _ hx); omega
      · have := h5 _ (Finset.mem_union_right _ hx); omega
  | release pc =>
    by_cases hmem : pc ∈ st.activeConnections
    · have hce : (st.activeConnections.erase pc).card =
          st.activeConnections.card - 1 := Finset.card_erase_of_mem hmem
      have hpos : 0 < st.activeConnections.card :=
        Finset.card_pos.mpr ⟨pc, hmem⟩
      have hnp : pc ∉ st.pendingClose := Finset.disjoint_left.mp h3 hmem
      have hcp : (insert pc st.pendingClose).card =
          st.pendingClose.card + 1 := Finset.card_insert_of_not_mem hnp
      refine ⟨?_, ?_, ?_, ?_, ?_⟩
      · simp only [poolStep, poolRelease, if_pos hmem, hce]
        omega
      · simp only [poolStep, poolRelease, if_pos hmem, hce, hcp]
        omega
      · simp only [poolStep, poolRelease, if_pos hmem]
        refine Finset.disjoint_insert_right.mpr
          ⟨Finset.not_mem_erase _ _, ?_⟩
        exact Finset.disjoint_of_subset_left (Finset.erase_subset _ _) h3
      · simp only [poolStep, poolRelease, if_pos hmem]
      · simp only [poolStep, poolRelease, if_pos hmem]
        intro x hx
        rcases Finset.mem_union.mp hx with hx | hx
        · exact h5 _ (Finset.mem_union_left _ (Finset.erase_subset _ _ hx))
        · rcases Finset.mem_insert.mp hx with rfl | hx
          · exact h5 _ (Finset.mem_union_left _ hmem)
          · exact h5 _ (Finset.mem_union_right _ hx)
    · simp only [poolStep, poolRelease, if_neg hmem]
      exact ⟨h1, h2, h3, h4, h5⟩
  | releaseImmediate pc =>
    simp only [poolOkB, decide_eq_true_eq] at hok
    have hce : (st.activeConnections.erase pc).card =
        st.activeConnections.card - 1 := Finset.card_erase_of_mem hok
    have hpos : 0 < st.activeConnections.card :=
      Finset.card_pos.mpr ⟨pc, hok⟩
    have hnp : pc ∉ st.pendingClose := Finset.disjoint_left.mp h3 hok
    have hpe : st.pendingClose.erase pc = st.pendingClose :=
      Finset.erase_eq_of_not_mem hnp
    refine ⟨?_, ?_, ?_, ?_, ?_⟩
    · simp only [poolStep, poolReleaseImmediate, hce]
      omega
    · simp only [poolStep, poolReleaseImmediate, hce, hpe]
      omega
    · simp only [poolStep, poolReleaseImmediate, hpe]
      exact Finset.disjoint_of_subset_left (Finset.erase_subset _ _) h3
    · simp only [poolStep, poolReleaseImmediate]
    · simp only [poolStep, poolReleaseImmediate, hpe]
      intro x hx
      rcases Finset.mem_union.mp hx with hx | hx
      · exact h5 _ (Finset.mem_union_left _ (Finset.erase_subset _ _ hx))
      · exact h5 _ (Finset.mem_union_right _ hx)
  | timerFire pc =>
    have hle : (st.pendingClose.erase pc).card ≤ st.pendingClose.card :=
      Finset.card_erase_le
    refine ⟨h1, ?_, ?_, h4, ?_⟩
    · simp only [poolStep, poolTimerFire]
      omega
    · simp only [poolStep, poolTimerFire]
      exact Finset.disjoint_of_subset_right (Finset.erase_subset _ _) h3
    · simp only [poolStep, poolTimerFire]
      intro x hx
      rcases Finset.mem_union.mp hx with hx | hx
      · exact h5 _ (Finset.mem_union_left _ hx)
      · exact h5 _ (Finset.mem_union_right _ (Finset.erase_subset _ _ hx))
  | clear =>
    refine ⟨rfl, by simp [poolStep, poolClear], by simp [poolStep, poolClear],
      rfl, ?_⟩
    simp [poolStep, poolClear]

theorem poolInv_run (t : List PEvent) : ∀ st, PoolInv st →
    poolValidB st t = true → PoolInv (poolRun st t) := by
  induction t with
  | nil => intro st hI _; exact hI
  | cons e t ih =>
    intro st hI hv
    simp only [poolValidB, Bool.and_eq_true] at hv
    exact ih _ (poolInv_step st e hI hv.1) hv.2

/-- C2 (amended): for every sequence of `acquire` / `release` /
`releaseImmediate` / `clear` calls (and delayed-close timer firings) in
which `releaseImmediate` only targets currently active handles — each
handle released at most once — the statistics satisfy
`created − released = active` and `active + pendingClose ≤ created`, the
reported `active` counts exactly the active set, and no pending-close
handle is counted in it.  (Calling `releaseImmediate` on an
already-released handle breaks the equation; see the counterexample.) -/
theorem pool_stats_invariant (t : List PEvent)
    (hv : poolValidB initPool t = true) :
    (((poolGetStats (poolRun initPool t)).created : ℤ) -
        (poolGetStats (poolRun initPool t)).released =
      (poolGetStats (poolRun initPool t)).active) ∧
    ((poolGetStats (poolRun initPool t)).active +
        (poolGetStats (poolRun initPool t)).pendingClose ≤
      (poolGetStats (poolRun initPool t)).created) ∧
    ((poolGetStats (poolRun initPool t)).active =
      (poolRun initPool t).activeConnections.card) ∧
    Disjoint (poolRun initPool t).activeConnections
      (poolRun initPool t).pendingClose := by
  obtain ⟨h1, h2, h3, h4, _⟩ := poolInv_run t initPool poolInv_init hv
  refine ⟨?_, ?_, ?_, h3⟩ <;> simp only [poolGetStats] <;> omega

/-- Witness for C2 on a concrete well-formed call sequence. -/
theorem pool_stats_invariant_witness :
    poolValidB initPool poolTrace = true ∧
    (((poolGetStats (poolRun initPool poolTrace)).created : ℤ) -
        (poolGetStats (poolRun initPool poolTrace)).released =
      (poolGetStats (poolRun initPool poolTrace)).active) ∧
    ((poolGetStats (poolRun initPool poolTrace)).active +
        (poolGetStats (poolRun initPool poolTrace)).pendingClose ≤
      (poolGetStats (poolRun initPool poolTrace)).created) :=
  ⟨by decide, (pool_stats_invariant poolTrace (by decide)).1,
    (pool_stats_invariant poolTrace (by decide)).2.1⟩

/-- Counterexample to C2 as stated: after acquire, release, and
releaseImmediate of the *same* handle, `released` is counted twice, so
`created − released = 1 − 2 ≠ 0 = active`. -/
theorem pool_stats_counterexample :
    poolGetStats (poolRun initPool poolBadTrace) = ⟨1, 2, 0, 0, 1⟩ ∧
    ¬ (((poolGetStats (poolRun initPool poolBadTrace)).created : ℤ) -
          (poolGetStats (poolRun initPool poolBadTrace)).released =
        (poolGetStats (poolRun initPool poolBadTrace)).active) := by
  constructor <;> decide

end WebRTC
